import Mathlib

/-!
Shallow embedding of `skimage/measure/segmentation_metrics.py` (the
segmentation-comparison metrics engine) and proofs about its claims.

Label fields are modelled as `List ℕ` (the code flattens every array with
`ravel()` before use, so only the flat element sequence and the shape check
matter); the two-dimensional images fed to the VI family are modelled as
`List (List ℕ)` because `vi_tables` uses its first argument directly as a
2-D array.  Machine floats are modelled as exact rationals `ℚ` (all the
arithmetic in scope is field arithmetic; the only transcendental step,
`np.log2`, is modelled with `Real.logb 2` over `ℝ`).  A float division whose
denominator is zero produces NaN at runtime; this is modelled by
`Option`-valued division (`none` = NaN).  A raised Python exception is
modelled with `Except String`.
-/

namespace SegMetrics

/-- Maximum of a list of naturals: `np.max` over the flattened values
(`0` for the empty list, where NumPy would raise; no claim exercises the
empty case). -/
def maxL (l : List ℕ) : ℕ := l.foldr Nat.max 0

/-!  ## Contingency Table Builder (`contingency_table`)

`contingency_table(im_true, im_test)` ravels both fields, builds a data
vector that is `1` everywhere except at positions where either field is `0`
(there it is `0`), and accumulates the data into a COO sparse matrix at
coordinates `(im_test[k], im_true[k])`, summing duplicates.  The cell
`[i, j]` therefore holds the number of positions labelled `i` in `im_test`
and `j` in `im_true`, with positions touching a `0` label contributing `0`.
The matrix shape is `(max(im_test)+1, max(im_true)+1)`. -/
/-- The COO triples `(row, col, data)` fed to `sparse.coo_matrix`:
row = test value, col = true value, data = `0` if either value is `0`
else `1`. -/
def contData (im_true im_test : List ℕ) : List (ℕ × ℕ × ℕ) :=
  (im_test.zip im_true).map
    (fun p => (p.1, p.2, if p.1 = 0 ∨ p.2 = 0 then 0 else 1))

/-- Cell `[i, j]` of the contingency table: duplicate-coordinate
accumulation of the COO data. -/
def contCell (im_true im_test : List ℕ) (i j : ℕ) : ℕ :=
  (((contData im_true im_test).filter
      (fun t => t.1 = i ∧ t.2.1 = j)).map (fun t => t.2.2)).sum

/-- Number of rows of the contingency table (`max(im_test.ravel())+1`). -/
def contRows (im_test : List ℕ) : ℕ := maxL im_test + 1

/-- Number of columns of the contingency table (`max(im_true.ravel())+1`). -/
def contCols (im_true : List ℕ) : ℕ := maxL im_true + 1

/-- `cont.sum()`: total of every entry of the contingency table. -/
def contTotal (im_true im_test : List ℕ) : ℕ :=
  ∑ i in Finset.range (contRows im_test), ∑ j in Finset.range (contCols im_true),
    contCell im_true im_test i j

/-- Generic COO accumulation: the value landing in cell `(i, j)` from a
triple list. -/
def cellOf (L : List (ℕ × ℕ × ℕ)) (i j : ℕ) : ℕ :=
  ((L.filter (fun t => t.1 = i ∧ t.2.1 = j)).map (fun t => t.2.2)).sum

/-!  ## Label Normalizer (`relabel_from_one`) -/
/-- `np.unique`: the sorted list of distinct values of the raveled input
(modelled as insertion sort of the deduplicated list; characterised below
by sortedness, freedom from duplicates, and membership). -/
def uniq {α : Type} [LinearOrder α] [DecidableEq α] (l : List α) : List α :=
  List.insertionSort (· ≤ ·) l.dedup

/-- `relabel_from_one(label_field)`: returns
`(relabeled, forward_map, inverse_map)`.  The fast path (labels already
dense `1..K`) hands back the input with the unique-value array filling both
map roles.  Otherwise `forward_map` is the length-`m+1` scatter
`forward_map[labels0] = 1..len(labels0)` (zero elsewhere), `relabeled` is
`forward_map[label_field]` (every value is `≤ m`, so the fancy indexing is
in bounds and modelled with `getD`), and `inverse_map` is the unique-value
array with `0` prepended when `0` is not among the labels. -/
def relabel_from_one (label_field : List ℕ) : List ℕ × List ℕ × List ℕ :=
  let labels := uniq label_field
  let labels0 := labels.filter (fun v => v ≠ 0)
  let m := maxL labels
  if m = labels0.length then (label_field, labels, labels)
  else
    let forward_map := (List.range (m + 1)).map
      (fun v => if v ∈ labels0 then labels0.indexOf v + 1 else 0)
    let labels2 := if 0 ∈ labels then labels else 0 :: labels
    (label_field.map (fun v => forward_map.getD v 0), forward_map, labels2)

/-- NumPy integer indexing `l[i]`, failing out of bounds. -/
def npGet (l : List ℕ) (i : ℕ) : Option ℕ := l.get? i

/-- The round-trip property of claim C7: at every voxel,
`forward_map[x] == relabeled` and `inverse_map[relabeled] == x`. -/
def roundTrip (x : List ℕ) : Prop :=
  ∀ k < x.length,
    npGet (relabel_from_one x).2.1 (x.getD k 0)
        = some ((relabel_from_one x).1.getD k 0)
    ∧ npGet (relabel_from_one x).2.2 ((relabel_from_one x).1.getD k 0)
        = some (x.getD k 0)

instance (x : List ℕ) : Decidable (roundTrip x) := by
  unfold roundTrip
  infer_instance

/-- The input takes the already-dense fast path of `relabel_from_one`. -/
def densePath (x : List ℕ) : Prop :=
  maxL (uniq x) = ((uniq x).filter (fun v => v ≠ 0)).length

instance (x : List ℕ) : Decidable (densePath x) := by
  unfold densePath
  infer_instance

/-!  ## Edit-Distance Counter (`compare_raw_edit_distance`)

The pipeline relabels both fields, builds the contingency table, zeroes
entries `<= size_threshold`, collapses surviving entries to `1`, and then
computes

    false_splits = (r.sum(axis=0)-1)[1:].sum()
    false_merges = (r.sum(axis=1)-1)[1:].sum()

`r` is a scipy sparse matrix whose `.sum(axis=...)` returns a *2-D numpy
matrix* (shape `(1, C)` for `axis=0` and `(R, 1)` for `axis=1`), and `[1:]`
slices away the first ROW of that matrix.  This is modelled literally below
with `List (List ℚ)` matrices.  -/
/-- Modelled from the spec: `_assert_compatible` (imported from
`skimage.measure.simple_metrics`, which is not under `src/`) is the input
pre-condition check: a shape mismatch between the two label fields is a
hard input error raised before any metric computation. -/
def assert_compatible (im_true im_test : List ℕ) : Except String Unit :=
  if im_true.length = im_test.length then Except.ok ()
  else Except.error "shape mismatch"

/-- The thresholding step `r.data[r.data <= size_threshold] = 0`. -/
def threshCell (im_true im_test : List ℕ) (τ : ℕ) (i j : ℕ) : ℕ :=
  if contCell im_true im_test i j ≤ τ then 0 else contCell im_true im_test i j

/-- The collapsing step `r.data[r.data.nonzero()] /= r.data[...]`: every
surviving overlap counts `1.0`. -/
def collapseCell (im_true im_test : List ℕ) (τ : ℕ) (i j : ℕ) : ℚ :=
  if threshCell im_true im_test τ i j ≠ 0 then 1 else 0

/-- `r.sum(axis=0)`: a `1 × C` numpy matrix of column sums. -/
def sumAxis0 (cell : ℕ → ℕ → ℚ) (R C : ℕ) : List (List ℚ) :=
  [(List.range C).map (fun j => ((List.range R).map (fun i => cell i j)).sum)]

/-- `r.sum(axis=1)`: an `R × 1` numpy matrix of row sums. -/
def sumAxis1 (cell : ℕ → ℕ → ℚ) (R C : ℕ) : List (List ℚ) :=
  (List.range R).map (fun i => [((List.range C).map (fun j => cell i j)).sum])

/-- Elementwise `M - 1` on a numpy matrix. -/
def matSubOne (M : List (List ℚ)) : List (List ℚ) :=
  M.map (fun r => r.map (fun q => q - 1))

/-- `M[1:]`: slicing a 2-D numpy matrix keeps rows `1:`. -/
def matTail (M : List (List ℚ)) : List (List ℚ) := M.drop 1

/-- `.sum()` over all entries of a numpy matrix. -/
def matSum (M : List (List ℚ)) : ℚ := (M.map List.sum).sum

/-- `compare_raw_edit_distance(im_true, im_test, size_threshold)`,
returning `(false_merges, false_splits)`. -/
def compare_raw_edit_distance (im_true im_test : List ℕ) (τ : ℕ) :
    Except String (ℚ × ℚ) :=
  match assert_compatible im_true im_test with
  | Except.error e => Except.error e
  | Except.ok _ =>
    let im_test2 := (relabel_from_one im_test).1
    let im_true2 := (relabel_from_one im_true).1
    let R := contRows im_test2
    let C := contCols im_true2
    let cell := collapseCell im_true2 im_test2 τ
    let false_splits := matSum (matTail (matSubOne (sumAxis0 cell R C)))
    let false_merges := matSum (matTail (matSubOne (sumAxis1 cell R C)))
    Except.ok (false_merges, false_splits)

/-- Number of true segments whose overlap with test segment `i` survives
the size threshold. -/
def overlapCount (im_true im_test : List ℕ) (τ : ℕ) (i : ℕ) : ℕ :=
  ((List.range (contCols im_true)).filter
    (fun j => τ < contCell im_true im_test i j)).length

/-- The quantity claim C4 calls `false_splits`: the sum over test-segment
rows (test labels > 0) of (number of true segments that test segment
overlaps with, minus one).  (The code assigns this quantity to
`false_merges` instead.) -/
def claimedFalseSplits (im_true im_test : List ℕ) (τ : ℕ) : ℚ :=
  (((List.range (contRows (relabel_from_one im_test).1)).drop 1).map
    (fun i => (overlapCount (relabel_from_one im_true).1
        (relabel_from_one im_test).1 τ i : ℚ) - 1)).sum

/-- Number of test segments whose overlap with true segment `j` survives
the size threshold. -/
def overlapCountCol (im_true im_test : List ℕ) (τ : ℕ) (j : ℕ) : ℕ :=
  ((List.range (contRows im_test)).filter
    (fun i => τ < contCell im_true im_test i j)).length

/-- The quantity claim C4 calls `false_merges`: the symmetric sum over
true-segment columns. -/
def claimedFalseMerges (im_true im_test : List ℕ) (τ : ℕ) : ℚ :=
  (((List.range (contCols (relabel_from_one im_true).1)).drop 1).map
    (fun j => (overlapCountCol (relabel_from_one im_true).1
        (relabel_from_one im_test).1 τ j : ℚ) - 1)).sum

/-!  ## Rand Statistics Engine (`rand_values`, `rand_index`,
`adj_rand_index`) -/
/-- Float division: a zero denominator produces NaN/inf at runtime
(`numpy` float semantics); modelled as `none`. -/
def fdiv (a b : ℚ) : Option ℚ := if b = 0 then none else some (a / b)

/-- `cont_table.sum()` for a cell-function view of the table. -/
def totSum (R C : ℕ) (cell : ℕ → ℕ → ℕ) : ℕ :=
  ∑ i in Finset.range R, ∑ j in Finset.range C, cell i j

/-- `(cont_table.multiply(cont_table)).sum()`: sum of squared cells. -/
def sumSq (R C : ℕ) (cell : ℕ → ℕ → ℕ) : ℕ :=
  ∑ i in Finset.range R, ∑ j in Finset.range C, (cell i j) ^ 2

/-- `(np.asarray(cont_table.sum(axis=1)) ** 2).sum()`: sum of squared row
sums. -/
def rowSumSq (R C : ℕ) (cell : ℕ → ℕ → ℕ) : ℕ :=
  ∑ i in Finset.range R, (∑ j in Finset.range C, cell i j) ^ 2

/-- `(np.asarray(cont_table.sum(axis=0)) ** 2).sum()`: sum of squared
column sums. -/
def colSumSq (R C : ℕ) (cell : ℕ → ℕ → ℕ) : ℕ :=
  ∑ j in Finset.range C, (∑ i in Finset.range R, cell i j) ^ 2

/-- `rand_values(cont_table)`: the four pair-counting statistics
`(a, b, c, d)`. -/
def rand_values (R C : ℕ) (cell : ℕ → ℕ → ℕ) : ℚ × ℚ × ℚ × ℚ :=
  let n : ℚ := totSum R C cell
  let sum1 : ℚ := sumSq R C cell
  let sum2 : ℚ := rowSumSq R C cell
  let sum3 : ℚ := colSumSq R C cell
  ((sum1 - n) / 2, (sum2 - sum1) / 2, (sum3 - sum1) / 2,
   (sum1 + n ^ 2 - sum2 - sum3) / 2)

/-- `rand_index(im1, im2) = (a+d)/(a+b+c+d)` on the contingency table of
the two fields (rows indexed by `im2`, the second argument of
`contingency_table(im1, im2)`). -/
def rand_index (im1 im2 : List ℕ) : Option ℚ :=
  match rand_values (contRows im2) (contCols im1) (contCell im1 im2) with
  | (a, b, c, d) => fdiv (a + d) (a + b + c + d)

/-- `adj_rand_index(im1, im2)`. -/
def adj_rand_index (im1 im2 : List ℕ) : Option ℚ :=
  match rand_values (contRows im2) (contCols im1) (contCell im1 im2) with
  | (a, b, c, d) =>
    let nk := a + b + c + d
    fdiv (nk * (a + d) - ((a + b) * (a + c) + (c + d) * (b + d)))
      (nk ^ 2 - ((a + b) * (a + c) + (c + d) * (b + d)))

/-!  ## `compare_adapted_rand_error` -/
/-- `n = segA.size`: the full element count of the test image, background
voxels included (not the masked non-background count). -/
def areN (im_test : List ℕ) : ℚ := im_test.length

/-- The spec's Adapted Rand precision:
`(sum_p_ij - n) / (sum_a - n)`, where `sum_a` is the dot product of the
axis-0 (column) sums with themselves. -/
def arePrecision (im_true im_test : List ℕ) : ℚ :=
  ((sumSq (contRows im_test) (contCols im_true)
      (contCell im_true im_test) : ℚ) - areN im_test)
  / ((colSumSq (contRows im_test) (contCols im_true)
      (contCell im_true im_test) : ℚ) - areN im_test)

/-- The spec's Adapted Rand recall:
`(sum_p_ij - n) / (sum_b - n)`, where `sum_b` is the dot product of the
axis-1 (row) sums with themselves. -/
def areRecall (im_true im_test : List ℕ) : ℚ :=
  ((sumSq (contRows im_test) (contCols im_true)
      (contCell im_true im_test) : ℚ) - areN im_test)
  / ((rowSumSq (contRows im_test) (contCols im_true)
      (contCell im_true im_test) : ℚ) - areN im_test)

/-- `compare_adapted_rand_error(im_true, im_test)`: builds
`p_ij = contingency_table(segB, segA)` with `segA = im_test`,
`segB = im_true`, takes `n = segA.size`, and returns
`(1 - fscore, precision, recall)`. -/
def compare_adapted_rand_error (im_true im_test : List ℕ) :
    Except String (Option (ℚ × ℚ × ℚ)) :=
  match assert_compatible im_true im_test with
  | Except.error e => Except.error e
  | Except.ok _ =>
    let n : ℚ := im_test.length
    let sum_p_ij : ℚ := sumSq (contRows im_test) (contCols im_true)
      (contCell im_true im_test)
    let sum_a : ℚ := colSumSq (contRows im_test) (contCols im_true)
      (contCell im_true im_test)
    let sum_b : ℚ := rowSumSq (contRows im_test) (contCols im_true)
      (contCell im_true im_test)
    Except.ok
      ((fdiv (sum_p_ij - n) (sum_a - n)).bind (fun precision =>
        (fdiv (sum_p_ij - n) (sum_b - n)).bind (fun recl =>
          (fdiv (2 * precision * recl) (precision + recl)).map
            (fun fscore => (1 - fscore, precision, recl)))))

/-!  ## Threshold Sweep Driver (`compare_rand_by_threshold`)

The test map is continuous-valued (an ultrametric contour map), modelled
as `List ℚ`.  The connected-component labeling of the thresholded mask is
the external collaborator `label(boolean_array)`; it is passed in as an
opaque function argument `labelFn` (only its output label field is used).
The `3 × T` row-stacked output is modelled transposed, as the list of `T`
columns `(threshold, rand_index, adj_rand_index)`. -/
/-- Modelled from the spec: the same `_assert_compatible` pre-condition
check (from `simple_metrics`, not under `src/`), at the test map's element
type. -/
def assert_compatible_q (im_true : List ℕ) (im_test : List ℚ) :
    Except String Unit :=
  if im_true.length = im_test.length then Except.ok ()
  else Except.error "shape mismatch"

/-- `np.arange(start, stop, step)` over naturals (the subsampling branch;
Python-2 integer division makes the step an integer). -/
def arangeN (start stop step : ℕ) : List ℕ :=
  (List.range ((stop - start + step - 1) / step)).map
    (fun k => start + k * step)

/-- The per-threshold loop body: for each threshold `t`, label the mask
`im_test < t` and compute the Rand and adjusted Rand indices against the
ground truth. -/
def sweep (labelFn : List Bool → List ℕ) (im_true : List ℕ)
    (im_test : List ℚ) (ts : List ℚ) :
    List (ℚ × Option ℚ × Option ℚ) :=
  ts.map (fun t =>
    (t, rand_index (labelFn (im_test.map (fun v => decide (v < t)))) im_true,
        adj_rand_index (labelFn (im_test.map (fun v => decide (v < t))))
          im_true))

/-- `compare_rand_by_threshold(im_true, im_test, npoints)`:
`ts = np.unique(im_test)[1:]` (the sorted unique values with the smallest
one dropped), subsampled only when `len(ts) > 2 * npoints`. -/
def compare_rand_by_threshold (labelFn : List Bool → List ℕ)
    (im_true : List ℕ) (im_test : List ℚ) (npoints : Option ℕ) :
    Except String (List (ℚ × Option ℚ × Option ℚ)) :=
  match assert_compatible_q im_true im_test with
  | Except.error e => Except.error e
  | Except.ok _ =>
    let ts := (uniq im_test).drop 1
    let np := npoints.getD ts.length
    if ts.length > 2 * np then
      if np = 0 then Except.error "integer division or modulo by zero"
      else
        let ts2 := (arangeN 1 ts.length (ts.length / np)).map
          (fun i => ts.getD i 0)
        Except.ok (sweep labelFn im_true im_test ts2)
    else Except.ok (sweep labelFn im_true im_test ts)

/-- The thresholds the claim describes: the non-zero unique values of the
test map. -/
def nonzeroUniques (l : List ℚ) : List ℚ :=
  (uniq l).filter (fun v => v ≠ 0)

/-!  ## Information-Theoretic Engine (`vi_tables`, `compare_split_vi`,
`compare_vi`)

`vi_tables(im1, im2)` binds `cont = im1` directly (line 379): it never
builds a contingency table from the two images and never reads `im2`, so
its first argument is consumed as a 2-D array.  2-D arrays are modelled as
`List (List ℕ)`; the probability tables are exact rationals and the
`np.log2` step maps into `ℝ` through `Real.logb 2` (hence the entropy-side
definitions are noncomputable). -/
/-- Number of rows of a 2-D array. -/
def rows2 (m : List (List ℕ)) : ℕ := m.length

/-- Number of columns of a 2-D array (rows of an ndarray all have the same
length; the maximum is taken for a total model). -/
def cols2 (m : List (List ℕ)) : ℕ := (m.map List.length).foldr Nat.max 0

/-- Entry `(i, j)` of a 2-D array. -/
def ent2 (m : List (List ℕ)) (i j : ℕ) : ℕ := (m.getD i []).getD j 0

/-- `xlogx`: `x * log2(x)` with the convention `0 * log2(0) = 0` (only the
non-zero entries are multiplied by their logarithm). -/
noncomputable def xlogx (q : ℚ) : ℝ :=
  if q = 0 then 0 else (q : ℝ) * Real.logb 2 (q : ℝ)

/-- `total = float(cont.sum())` in `vi_tables` (where `cont = im1`). -/
def viTotal (im1 : List (List ℕ)) : ℚ :=
  ∑ i in Finset.range (rows2 im1), ∑ j in Finset.range (cols2 im1),
    (ent2 im1 i j : ℚ)

/-- `pxy = cont / total`. -/
def pxy (im1 : List (List ℕ)) (i j : ℕ) : ℚ :=
  (ent2 im1 i j : ℚ) / viTotal im1

/-- `px = pxy.sum(axis=1)`. -/
def vipx (im1 : List (List ℕ)) (i : ℕ) : ℚ :=
  ∑ j in Finset.range (cols2 im1), pxy im1 i j

/-- `py = pxy.sum(axis=0)`. -/
def vipy (im1 : List (List ℕ)) (j : ℕ) : ℚ :=
  ∑ i in Finset.range (rows2 im1), pxy im1 i j

/-- `nzx = px.nonzero()[0]`. -/
def nzx (im1 : List (List ℕ)) : List ℕ :=
  (List.range (rows2 im1)).filter (fun i => vipx im1 i ≠ 0)

/-- `nzy = py.nonzero()[0]`. -/
def nzy (im1 : List (List ℕ)) : List ℕ :=
  (List.range (cols2 im1)).filter (fun j => vipy im1 j ≠ 0)

/-- `lpygx`: zero except on `nzx` (i.e. where `px` is non-zero), where it
is the row sum, over the `nzy` columns, of
`xlogx(divide_rows(nzpxy, nzpx))` — each selected row of the restricted
joint table divided by its marginal. -/
noncomputable def lpygx (im1 : List (List ℕ)) (i : ℕ) : ℝ :=
  if vipx im1 i ≠ 0 then
    ((nzy im1).map (fun j => xlogx (pxy im1 i j / vipx im1 i))).sum
  else 0

/-- `lpxgy`: the symmetric column quantity,
`xlogx(divide_columns(nzpxy, nzpy)).sum(axis=0)` scattered over `nzy`. -/
noncomputable def lpxgy (im1 : List (List ℕ)) (j : ℕ) : ℝ :=
  if vipy im1 j ≠ 0 then
    ((nzx im1).map (fun i => xlogx (pxy im1 i j / vipy im1 j))).sum
  else 0

/-- `hygx = -(px * lpygx)`. -/
noncomputable def hygx (im1 : List (List ℕ)) (i : ℕ) : ℝ :=
  -((vipx im1 i : ℝ) * lpygx im1 i)

/-- `hxgy = -(py * lpxgy)`. -/
noncomputable def hxgy (im1 : List (List ℕ)) (j : ℕ) : ℝ :=
  -((vipy im1 j : ℝ) * lpxgy im1 j)

/-- `vi_tables(im1, im2)`:
`[pxy, px, py, hxgy, hygx, lpygx, lpxgy]`.  `cont` is bound to `im1`
itself and `im2` is never read. -/
noncomputable def vi_tables (im1 im2 : List (List ℕ)) :
    (ℕ → ℕ → ℚ) × (ℕ → ℚ) × (ℕ → ℚ) × (ℕ → ℝ) × (ℕ → ℝ) × (ℕ → ℝ)
      × (ℕ → ℝ) :=
  (pxy im1, vipx im1, vipy im1, hxgy im1, hygx im1, lpygx im1, lpxgy im1)

/-- `compare_split_vi(im1, im2) = [hygx.sum(), hxgy.sum()]`. -/
noncomputable def compare_split_vi (im1 im2 : List (List ℕ)) : ℝ × ℝ :=
  match vi_tables im1 im2 with
  | (_, _, _, hxgyV, hygxV, _, _) =>
    (∑ i in Finset.range (rows2 im1), hygxV i,
     ∑ j in Finset.range (cols2 im1), hxgyV j)

/-- `compare_vi(im1, im2, weights) = np.dot(weights,
compare_split_vi(im1, im2))`; default weights `(1, 1)`. -/
noncomputable def compare_vi (im1 im2 : List (List ℕ)) (w : ℚ × ℚ) : ℝ :=
  (w.1 : ℝ) * (compare_split_vi im1 im2).1
    + (w.2 : ℝ) * (compare_split_vi im1 im2).2

/-!  ## Shape pre-condition checks at the entry points (claim C5)

`compare_raw_edit_distance`, `compare_adapted_rand_error` and
`compare_rand_by_threshold` call `_assert_compatible` first;
`compare_vi` and `compare_split_vi` do not call it at all, and (because
`vi_tables` never reads `im2`) no error of any kind arises from a shape
mismatch there.  Seen in the same error monad as the other entry points,
they always return a value. -/
/-- The shape of a 2-D array (row count and per-row lengths). -/
def shape2 (m : List (List ℕ)) : ℕ × List ℕ :=
  (m.length, m.map List.length)

/-- `compare_split_vi` viewed in the error monad: it performs no
pre-condition check and never raises. -/
noncomputable def compare_split_viE (im1 im2 : List (List ℕ)) :
    Except String (ℝ × ℝ) :=
  Except.ok (compare_split_vi im1 im2)

/-- `compare_vi` viewed in the error monad: it performs no pre-condition
check and never raises. -/
noncomputable def compare_viE (im1 im2 : List (List ℕ)) (w : ℚ × ℚ) :
    Except String ℝ :=
  Except.ok (compare_vi im1 im2 w)

theorem le_maxL {a : ℕ} {l : List ℕ} (h : a ∈ l) : a ≤ maxL l := by
  induction l with
  | nil => cases h
  | cons b t ih =>
    rcases List.mem_cons.mp h with rfl | h
    · exact Nat.le_max_left _ _
    · exact le_trans (ih h) (Nat.le_max_right _ _)

theorem contCell_eq_cellOf (im_true im_test : List ℕ) (i j : ℕ) :
    contCell im_true im_test i j = cellOf (contData im_true im_test) i j := rfl

theorem cellOf_nil (i j : ℕ) : cellOf [] i j = 0 := rfl

theorem cellOf_cons (t : ℕ × ℕ × ℕ) (L : List (ℕ × ℕ × ℕ)) (i j : ℕ) :
    cellOf (t :: L) i j
      = (if t.1 = i ∧ t.2.1 = j then t.2.2 else 0) + cellOf L i j := by
  by_cases h : t.1 = i ∧ t.2.1 = j <;>
    simp [cellOf, List.filter_cons, h]

theorem sum_cellOf (L : List (ℕ × ℕ × ℕ)) (R C : ℕ)
    (hb : ∀ t ∈ L, t.1 < R ∧ t.2.1 < C) :
    (∑ i in Finset.range R, ∑ j in Finset.range C, cellOf L i j)
      = (L.map (fun t => t.2.2)).sum := by
  induction L with
  | nil => simp [cellOf_nil]
  | cons t L ih =>
    have ht := hb t (List.mem_cons_self t L)
    have hL : ∀ u ∈ L, u.1 < R ∧ u.2.1 < C :=
      fun u hu => hb u (List.mem_cons_of_mem t hu)
    simp only [cellOf_cons, Finset.sum_add_distrib, ih hL, List.map_cons,
      List.sum_cons]
    congr 1
    have : ∀ i, (∑ j in Finset.range C,
        if t.1 = i ∧ t.2.1 = j then t.2.2 else 0)
        = if t.1 = i then t.2.2 else 0 := by
      intro i
      by_cases hi : t.1 = i
      · simp [hi, Finset.sum_ite_eq, Finset.mem_range, ht.2]
      · simp [hi]
    simp [this, Finset.sum_ite_eq, Finset.mem_range, ht.1]

theorem contData_bounds (im_true im_test : List ℕ) :
    ∀ t ∈ contData im_true im_test,
      t.1 < contRows im_test ∧ t.2.1 < contCols im_true := by
  intro t ht
  simp only [contData, List.mem_map] at ht
  obtain ⟨p, hp, rfl⟩ := ht
  obtain ⟨h1, h2⟩ := List.of_mem_zip hp
  exact ⟨Nat.lt_succ_of_le (le_maxL h1), Nat.lt_succ_of_le (le_maxL h2)⟩

theorem contData_sum (im_true im_test : List ℕ) :
    ((contData im_true im_test).map (fun t => t.2.2)).sum
      = ((im_test.zip im_true).filter
          (fun p => p.1 ≠ 0 ∧ p.2 ≠ 0)).length := by
  simp only [contData, List.map_map]
  induction im_test.zip im_true with
  | nil => rfl
  | cons p l ih =>
    by_cases h : p.1 = 0 ∨ p.2 = 0
    · have h' : ¬(p.1 ≠ 0 ∧ p.2 ≠ 0) := by tauto
      simp [List.filter_cons, h, h', ih, Function.comp]
    · have h' : p.1 ≠ 0 ∧ p.2 ≠ 0 := by tauto
      simp [List.filter_cons, h, h', ih, Function.comp, Nat.add_comm]

/-- Claim C8: for two label fields of identical shape, the contingency
table's total sum equals the number of positions where both fields are
non-zero, and every entry in row 0 or column 0 of the table is zero. -/
theorem contingency_marginal_consistency (im_true im_test : List ℕ)
    (_hshape : im_true.length = im_test.length) :
    contTotal im_true im_test
      = ((im_test.zip im_true).filter
          (fun p => p.1 ≠ 0 ∧ p.2 ≠ 0)).length
    ∧ (∀ j < contCols im_true, contCell im_true im_test 0 j = 0)
    ∧ (∀ i < contRows im_test, contCell im_true im_test i 0 = 0) := by
  refine ⟨?_, ?_, ?_⟩
  · rw [contTotal]
    rw [show (fun i => ∑ j in Finset.range (contCols im_true),
          contCell im_true im_test i j)
        = fun i => ∑ j in Finset.range (contCols im_true),
          cellOf (contData im_true im_test) i j from rfl]
    rw [sum_cellOf _ _ _ (contData_bounds im_true im_test)]
    exact contData_sum im_true im_test
  · intro j _
    apply List.sum_eq_zero
    intro x hx
    simp only [contCell, List.mem_map, List.mem_filter] at hx
    obtain ⟨t, ⟨htm, htc⟩, rfl⟩ := hx
    simp only [contData, List.mem_map] at htm
    obtain ⟨p, _, rfl⟩ := htm
    simp only [decide_eq_true_eq] at htc
    simp [htc.1]
  · intro i _
    apply List.sum_eq_zero
    intro x hx
    simp only [contCell, List.mem_map, List.mem_filter] at hx
    obtain ⟨t, ⟨htm, htc⟩, rfl⟩ := hx
    simp only [contData, List.mem_map] at htm
    obtain ⟨p, _, rfl⟩ := htm
    simp only [decide_eq_true_eq] at htc
    simp [htc.2]

/-- Witness for C8 at `im_true = [1,0,2]`, `im_test = [1,1,2]`: the table
total is 2, the count of positions where both labels are non-zero. -/
theorem contingency_marginal_consistency_witness :
    contTotal [1, 0, 2] [1, 1, 2]
      = ((([1, 1, 2] : List ℕ).zip ([1, 0, 2] : List ℕ)).filter
          (fun p => p.1 ≠ 0 ∧ p.2 ≠ 0)).length
    ∧ (∀ j < contCols [1, 0, 2], contCell [1, 0, 2] [1, 1, 2] 0 j = 0)
    ∧ (∀ i < contRows [1, 1, 2], contCell [1, 0, 2] [1, 1, 2] i 0 = 0) :=
  contingency_marginal_consistency [1, 0, 2] [1, 1, 2] rfl

theorem uniq_sorted {α : Type} [LinearOrder α] [DecidableEq α] (l : List α) :
    (uniq l).Sorted (· ≤ ·) :=
  List.sorted_insertionSort _ _

theorem uniq_nodup {α : Type} [LinearOrder α] [DecidableEq α] (l : List α) :
    (uniq l).Nodup :=
  (List.perm_insertionSort _ _).nodup_iff.mpr l.nodup_dedup

theorem mem_uniq {α : Type} [LinearOrder α] [DecidableEq α] {l : List α}
    {a : α} : a ∈ uniq l ↔ a ∈ l := by
  rw [uniq, List.mem_insertionSort, List.mem_dedup]

theorem length_uniq {α : Type} [LinearOrder α] [DecidableEq α] (l : List α) :
    (uniq l).length = l.dedup.length :=
  List.length_insertionSort _ _

/-- In a sorted duplicate-free list, a member below every element is the
head, and the tail is the list with that member filtered out. -/
theorem sorted_head_filter {α : Type} [LinearOrder α] [DecidableEq α]
    {l : List α} {a : α} (hs : l.Sorted (· ≤ ·)) (hn : l.Nodup) (ha : a ∈ l)
    (hbot : ∀ b ∈ l, a ≤ b) :
    l = a :: l.filter (fun x => x ≠ a) := by
  cases l with
  | nil => cases ha
  | cons b t =>
    have hba : b = a := by
      rcases List.mem_cons.mp ha with rfl | hat
      · rfl
      · exact le_antisymm (List.rel_of_sorted_cons hs a hat)
          (hbot b (List.mem_cons_self b t))
    subst hba
    have hbt : b ∉ t := (List.nodup_cons.mp hn).1
    have h1 : (b :: t).filter (fun x => x ≠ b) = t.filter (fun x => x ≠ b) :=
      List.filter_cons_of_neg (by simp)
    have h2 : t.filter (fun x => x ≠ b) = t :=
      List.filter_eq_self.mpr (fun x hx => by
        simp only [decide_eq_true_eq]
        rintro rfl
        exact hbt hx)
    rw [h1, h2]

/-- Two sorted duplicate-free lists with the same members are equal. -/
theorem sorted_nodup_ext {α : Type} [LinearOrder α] {l1 l2 : List α}
    (hs1 : l1.Sorted (· ≤ ·)) (hs2 : l2.Sorted (· ≤ ·))
    (hn1 : l1.Nodup) (hn2 : l2.Nodup) (hm : ∀ a, a ∈ l1 ↔ a ∈ l2) :
    l1 = l2 :=
  List.eq_of_perm_of_sorted ((List.perm_ext_iff_of_nodup hn1 hn2).mpr hm)
    hs1 hs2

theorem map_getD_of_lt {f : ℕ → ℕ} {x : List ℕ} {k : ℕ}
    (hk : k < x.length) : (x.map f).getD k 0 = f (x.getD k 0) := by
  rw [List.getD_eq_getElem _ _ (by simpa using hk),
    List.getD_eq_getElem _ _ hk, List.getElem_map]

theorem getD_mem_of_lt {x : List ℕ} {k : ℕ} (hk : k < x.length) :
    x.getD k 0 ∈ x := by
  rw [List.getD_eq_getElem _ _ hk]
  exact List.getElem_mem hk

/-- When the labels are not already dense, `uniq x` is `0 :: labels0` as
soon as `0` occurs in `x`; and `labels0 = uniq x` otherwise. -/
theorem uniq_zero_cons {x : List ℕ} (h0 : 0 ∈ x) :
    uniq x = 0 :: (uniq x).filter (fun v => v ≠ 0) :=
  sorted_head_filter (uniq_sorted x) (uniq_nodup x) (mem_uniq.mpr h0)
    (fun b _ => Nat.zero_le b)

/-- Claim C7 (amended): the round-trip equations
`forward_map[x] == relabeled` and `inverse_map[relabeled] == x` hold at
every voxel whenever `0` occurs in `x` or `x` does not take the
already-dense fast path of `relabel_from_one`. -/
theorem relabel_round_trip (x : List ℕ) (h : 0 ∈ x ∨ ¬ densePath x) :
    roundTrip x := by
  intro k hk
  have hvmem : x.getD k 0 ∈ x := getD_mem_of_lt hk
  by_cases hd : densePath x
  · -- fast path; the hypothesis forces 0 ∈ x
    have h0 : 0 ∈ x := by
      rcases h with h0 | hnd
      · exact h0
      · exact absurd hd hnd
    have hdec := uniq_zero_cons h0
    have hd' : maxL (uniq x)
        = ((uniq x).filter (fun v => v ≠ 0)).length := hd
    have hlen : (uniq x).length = maxL (uniq x) + 1 := by
      conv_lhs => rw [hdec]
      rw [List.length_cons, hd']
    -- the unique labels are exactly 0..m
    have hlab : uniq x = List.range (maxL (uniq x) + 1) := by
      refine sorted_nodup_ext (uniq_sorted x)
        (List.Pairwise.imp le_of_lt (List.pairwise_lt_range _))
        (uniq_nodup x) (List.nodup_range _) ?_
      intro a
      rw [List.mem_range]
      constructor
      · intro ha
        exact Nat.lt_succ_of_le (le_maxL ha)
      · intro ha
        have hsub : x.toFinset ⊆ Finset.range (maxL (uniq x) + 1) := by
          intro b hb
          rw [Finset.mem_range]
          exact Nat.lt_succ_of_le (le_maxL (mem_uniq.mpr (List.mem_toFinset.mp hb)))
        have hcard : (Finset.range (maxL (uniq x) + 1)).card ≤ x.toFinset.card := by
          rw [Finset.card_range, List.card_toFinset, ← length_uniq, hlen]
        have hfeq := Finset.eq_of_subset_of_card_le hsub hcard
        rw [mem_uniq, ← List.mem_toFinset, hfeq, Finset.mem_range]
        exact ha
    have hfast : relabel_from_one x = (x, uniq x, uniq x) := by
      rw [relabel_from_one]
      rw [if_pos hd']
    have hvle : x.getD k 0 < maxL (uniq x) + 1 :=
      Nat.lt_succ_of_le (le_maxL (mem_uniq.mpr hvmem))
    have hget : npGet (uniq x) (x.getD k 0) = some (x.getD k 0) := by
      rw [npGet, hlab, List.get?_range hvle]
    rw [hfast]
    exact ⟨hget, hget⟩
  · -- slow path
    have hnotif : ¬ (maxL (uniq x)
        = ((uniq x).filter (fun v => v ≠ 0)).length) := hd
    set labels0 := (uniq x).filter (fun v => v ≠ 0) with hl0
    set m := maxL (uniq x) with hm
    set fwf : ℕ → ℕ :=
      (fun v => if v ∈ labels0 then labels0.indexOf v + 1 else 0) with hfwf
    set fwlist := (List.range (m + 1)).map fwf with hfw
    have hslow : relabel_from_one x
        = (x.map (fun v => fwlist.getD v 0), fwlist,
           if 0 ∈ uniq x then uniq x else 0 :: uniq x) := by
      rw [relabel_from_one]
      simp only [if_neg hnotif]
    have hinv : (if 0 ∈ uniq x then uniq x else 0 :: uniq x)
        = 0 :: labels0 := by
      by_cases h0 : 0 ∈ uniq x
      · rw [if_pos h0]
        exact sorted_head_filter (uniq_sorted x) (uniq_nodup x) h0
          (fun b _ => Nat.zero_le b)
      · rw [if_neg h0, hl0]
        congr 1
        refine (List.filter_eq_self.mpr ?_).symm
        intro a ha
        simp only [decide_eq_true_eq]
        rintro rfl
        exact h0 ha
    have hvlt : x.getD k 0 < m + 1 :=
      Nat.lt_succ_of_le (le_maxL (mem_uniq.mpr hvmem))
    have hfwget : npGet fwlist (x.getD k 0) = some (fwf (x.getD k 0)) := by
      rw [npGet, hfw, List.get?_map, List.get?_range hvlt]
      rfl
    have hmapD : (x.map (fun v => fwlist.getD v 0)).getD k 0
        = fwlist.getD (x.getD k 0) 0 := map_getD_of_lt hk
    have hfwD : fwlist.getD (x.getD k 0) 0 = fwf (x.getD k 0) := by
      have hlen2 : x.getD k 0 < fwlist.length := by
        rw [hfw, List.length_map, List.length_range]
        exact hvlt
      rw [List.getD_eq_getElem _ _ hlen2]
      simp [hfw]
    rw [hslow, hinv]
    refine ⟨by rw [hfwget, hmapD, hfwD], ?_⟩
    rw [hmapD, hfwD]
    by_cases hv0 : x.getD k 0 = 0
    · have hnm : (0 : ℕ) ∉ labels0 := by
        rw [hl0]
        intro hmem
        have hcontra := (List.mem_filter.mp hmem).2
        simp at hcontra
      rw [hfwf]
      simp only [if_neg hnm, hv0]
      rfl
    · have hmem0 : x.getD k 0 ∈ labels0 := by
        rw [hl0, List.mem_filter]
        exact ⟨mem_uniq.mpr hvmem, by simpa using hv0⟩
      rw [hfwf]
      simp only [if_pos hmem0]
      rw [npGet, List.get?_cons_succ, List.indexOf_get? hmem0]

/-- Counterexample to claim C7 as stated: for `x = [1, 2]` the fast path
returns the unique-value array `[1, 2]` as both maps, and already at the
first voxel `forward_map[x[0]] = forward_map[1] = 2 ≠ relabeled[0] = 1`,
so the round-trip equations fail. -/
theorem relabel_round_trip_cex : ¬ roundTrip [1, 2] := by decide

/-- Witness for C7 (amended) at the docstring example
`x = [1, 1, 5, 5, 8, 99, 42]`, which does not take the dense fast path. -/
theorem relabel_round_trip_witness :
    (0 ∈ [1, 1, 5, 5, 8, 99, 42] ∨ ¬ densePath [1, 1, 5, 5, 8, 99, 42])
    ∧ roundTrip [1, 1, 5, 5, 8, 99, 42] :=
  ⟨Or.inr (by decide),
   relabel_round_trip [1, 1, 5, 5, 8, 99, 42] (Or.inr (by decide))⟩

theorem collapseCell_eq (im_true im_test : List ℕ) (τ i j : ℕ) :
    collapseCell im_true im_test τ i j
      = if τ < contCell im_true im_test i j then (1 : ℚ) else 0 := by
  unfold collapseCell threshCell
  by_cases h : contCell im_true im_test i j ≤ τ
  · rw [if_pos h, if_neg (by simp), if_neg (by omega)]
  · rw [if_neg h, if_pos (by omega), if_pos (by omega)]

theorem sum_map_ite_one {α : Type} (l : List α) (p : α → Prop)
    [DecidablePred p] :
    (l.map (fun a => if p a then (1 : ℚ) else 0)).sum
      = ((l.filter (fun a => decide (p a))).length : ℚ) := by
  induction l with
  | nil => simp
  | cons a t ih =>
    by_cases h : p a
    · simp [List.filter_cons, h, ih]
      ring
    · simp [List.filter_cons, h, ih]

/-- Evaluation of the whole edit-distance pipeline: `false_merges` is the
sum over test rows `1..R-1` of (number of surviving overlaps minus one),
and `false_splits` is always `0` because `[1:]` removes the single row of
the `1 × C` column-sum matrix. -/
theorem raw_edit_eval (im_true im_test : List ℕ) (τ : ℕ)
    (h : im_true.length = im_test.length) :
    compare_raw_edit_distance im_true im_test τ
      = Except.ok
        ((((List.range (contRows (relabel_from_one im_test).1)).drop 1).map
            (fun i => (overlapCount (relabel_from_one im_true).1
                (relabel_from_one im_test).1 τ i : ℚ) - 1)).sum,
         0) := by
  rw [compare_raw_edit_distance, assert_compatible, if_pos h]
  refine congrArg Except.ok (Prod.ext ?_ ?_)
  · -- false_merges
    show matSum (matTail (matSubOne (sumAxis1 _ _ _))) = _
    rw [sumAxis1, matSubOne, matTail, matSum]
    rw [List.map_map, ← List.map_drop, List.map_map]
    show (List.map _ ((List.range
        (contRows (relabel_from_one im_test).1)).drop 1)).sum
      = (List.map (fun i => (overlapCount (relabel_from_one im_true).1
          (relabel_from_one im_test).1 τ i : ℚ) - 1)
        ((List.range (contRows (relabel_from_one im_test).1)).drop 1)).sum
    refine congrArg List.sum (List.map_congr_left ?_)
    intro i _
    simp only [Function.comp, List.map_cons, List.map_nil, List.sum_cons,
      List.sum_nil, add_zero]
    congr 1
    rw [show (fun j => collapseCell (relabel_from_one im_true).1
          (relabel_from_one im_test).1 τ i j)
        = (fun j => if τ < contCell (relabel_from_one im_true).1
            (relabel_from_one im_test).1 i j then (1 : ℚ) else 0) from
        funext (fun j => collapseCell_eq _ _ τ i j)]
    exact sum_map_ite_one _ _
  · -- false_splits: the 1 × C matrix loses its only row under [1:]
    show matSum (matTail (matSubOne (sumAxis0
        (collapseCell (relabel_from_one im_true).1
          (relabel_from_one im_test).1 τ)
        (contRows (relabel_from_one im_test).1)
        (contCols (relabel_from_one im_true).1)))) = _
    rw [sumAxis0, matSubOne, matTail]
    simp [matSum]

/-- Claim C4 (amended): after zeroing cells `<= size_threshold` and
collapsing surviving cells to 1, `false_merges` equals the sum over
test-segment rows (test labels `1..R-1`) of (number of true segments whose
overlap with that test segment survives, minus 1); `false_splits`, as
computed, is always `0.0`, because `r.sum(axis=0)` is a `1 × C` numpy
matrix and the row slice `[1:]` removes its only row. -/
theorem raw_edit_distance_axis_sums (im_true im_test : List ℕ) (τ : ℕ)
    (h : im_true.length = im_test.length) :
    compare_raw_edit_distance im_true im_test τ
      = Except.ok
        ((((List.range (contRows (relabel_from_one im_test).1)).drop 1).map
            (fun i => (overlapCount (relabel_from_one im_true).1
                (relabel_from_one im_test).1 τ i : ℚ) - 1)).sum,
         0) :=
  raw_edit_eval im_true im_test τ h

/-- Witness for C4 at `im_true = im_test = [1]`, `size_threshold = 0`. -/
theorem raw_edit_distance_axis_sums_witness :
    compare_raw_edit_distance [1] [1] 0
      = Except.ok
        ((((List.range (contRows (relabel_from_one [1]).1)).drop 1).map
            (fun i => (overlapCount (relabel_from_one [1]).1
                (relabel_from_one [1]).1 0 i : ℚ) - 1)).sum,
         0) :=
  raw_edit_distance_axis_sums [1] [1] 0 rfl

/-- Counterexample to claim C4 as stated: for `im_true = [1, 2]`,
`im_test = [1, 1]`, `size_threshold = 0`, the claim predicts
`false_splits = 1` (test segment 1 overlaps two true segments) and
`false_merges = 0`, but the code returns
`(false_merges, false_splits) = (1, 0)`: the two quantities are assigned
to the opposite components, and the computed `false_splits` is `0`. -/
theorem raw_edit_distance_axis_cex :
    compare_raw_edit_distance [1, 2] [1, 1] 0 = Except.ok (1, 0)
    ∧ claimedFalseSplits [1, 2] [1, 1] 0 = 1
    ∧ claimedFalseMerges [1, 2] [1, 1] 0 = 0
    ∧ ¬((0 : ℚ) = 1 ∧ (1 : ℚ) = 0) := by
  have hsplits : claimedFalseSplits [1, 2] [1, 1] 0 = 1 := by
    have h1 : (relabel_from_one [1, 1]).1 = [1, 1] := by decide
    have h2 : (relabel_from_one [1, 2]).1 = [1, 2] := by decide
    have h3 : contRows [1, 1] = 2 := by decide
    have h4 : (List.range 2).drop 1 = [1] := by decide
    have h5 : overlapCount [1, 2] [1, 1] 0 1 = 2 := by decide
    rw [claimedFalseSplits, h1, h2, h3, h4]
    simp only [List.map_cons, List.map_nil, List.sum_cons, List.sum_nil, h5]
    norm_num
  refine ⟨?_, hsplits, ?_, by norm_num⟩
  · rw [raw_edit_eval [1, 2] [1, 1] 0 rfl]
    have : (((List.range (contRows (relabel_from_one [1, 1]).1)).drop 1).map
        (fun i => (overlapCount (relabel_from_one [1, 2]).1
            (relabel_from_one [1, 1]).1 0 i : ℚ) - 1)).sum
        = claimedFalseSplits [1, 2] [1, 1] 0 := rfl
    rw [this, hsplits]
  · have h1 : (relabel_from_one [1, 1]).1 = [1, 1] := by decide
    have h2 : (relabel_from_one [1, 2]).1 = [1, 2] := by decide
    have h3 : contCols [1, 2] = 3 := by decide
    have h4 : (List.range 3).drop 1 = [1, 2] := by decide
    have h5 : overlapCountCol [1, 2] [1, 1] 0 1 = 1 := by decide
    have h6 : overlapCountCol [1, 2] [1, 1] 0 2 = 1 := by decide
    rw [claimedFalseMerges, h1, h2, h3, h4]
    simp only [List.map_cons, List.map_nil, List.sum_cons, List.sum_nil,
      h5, h6]
    norm_num

/-- Shared evaluation of the spec's end-to-end scenario
`true = [1,1,2,2,3,3]`, `test = [1,1,1,2,2,3]`, `size_threshold = 0`. -/
theorem raw_edit_scenario_val :
    compare_raw_edit_distance [1, 1, 2, 2, 3, 3] [1, 1, 1, 2, 2, 3] 0
      = Except.ok (2, 0) := by
  rw [raw_edit_eval [1, 1, 2, 2, 3, 3] [1, 1, 1, 2, 2, 3] 0 rfl]
  have h1 : (relabel_from_one [1, 1, 1, 2, 2, 3]).1
      = [1, 1, 1, 2, 2, 3] := by decide
  have h2 : (relabel_from_one [1, 1, 2, 2, 3, 3]).1
      = [1, 1, 2, 2, 3, 3] := by decide
  have h3 : contRows [1, 1, 1, 2, 2, 3] = 4 := by decide
  have h4 : (List.range 4).drop 1 = [1, 2, 3] := by decide
  have h5 : overlapCount [1, 1, 2, 2, 3, 3] [1, 1, 1, 2, 2, 3] 0 1 = 2 := by
    decide
  have h6 : overlapCount [1, 1, 2, 2, 3, 3] [1, 1, 1, 2, 2, 3] 0 2 = 2 := by
    decide
  have h7 : overlapCount [1, 1, 2, 2, 3, 3] [1, 1, 1, 2, 2, 3] 0 3 = 1 := by
    decide
  rw [h1, h2, h3, h4]
  simp only [List.map_cons, List.map_nil, List.sum_cons, List.sum_nil,
    h5, h6, h7]
  norm_num

/-- Counterexample to claim C3 as stated: on the spec's scenario the code
does not return `(1.0, 1.0)`. -/
theorem raw_edit_scenario_cex :
    compare_raw_edit_distance [1, 1, 2, 2, 3, 3] [1, 1, 1, 2, 2, 3] 0
      ≠ Except.ok (1, 1) := by
  rw [raw_edit_scenario_val]
  intro hcontra
  have := (Prod.mk.injEq _ _ _ _).mp (Except.ok.inj hcontra)
  norm_num at this

/-- Claim C3 (amended): on `true = [1,1,2,2,3,3]`, `test = [1,1,1,2,2,3]`
with `size_threshold = 0`, `compare_raw_edit_distance` returns
`(false_merges, false_splits) = (2.0, 0.0)`. -/
theorem raw_edit_scenario :
    compare_raw_edit_distance [1, 1, 2, 2, 3, 3] [1, 1, 1, 2, 2, 3] 0
      = Except.ok (2, 0) :=
  raw_edit_scenario_val

theorem zip_self_eq_map (l : List ℕ) :
    l.zip l = l.map (fun a => (a, a)) := by
  induction l with
  | nil => rfl
  | cons a t ih => simp [ih]

theorem contData_self_fst_eq (x : List ℕ) :
    ∀ t ∈ contData x x, t.1 = t.2.1 := by
  intro t htm
  simp only [contData, List.mem_map] at htm
  obtain ⟨p, hp, rfl⟩ := htm
  rw [zip_self_eq_map] at hp
  simp only [List.mem_map] at hp
  obtain ⟨a, _, rfl⟩ := hp
  rfl

/-- The self-comparison contingency table is diagonal. -/
theorem contCell_self_offdiag (x : List ℕ) {i j : ℕ} (hij : i ≠ j) :
    contCell x x i j = 0 := by
  rw [contCell, List.filter_eq_nil.mpr, List.map_nil, List.sum_nil]
  intro t htm
  have hd := contData_self_fst_eq x t htm
  simp only [decide_eq_true_eq]
  rintro ⟨h1, h2⟩
  exact hij (h1.symm.trans (hd.trans h2))

theorem rowSum_self (x : List ℕ) (i : ℕ) (hi : i < contCols x) :
    ∑ j in Finset.range (contCols x), contCell x x i j
      = contCell x x i i :=
  Finset.sum_eq_single i
    (fun b _ hb => contCell_self_offdiag x (fun h => hb h.symm))
    (fun hni => absurd (Finset.mem_range.mpr hi) hni)

theorem colSum_self (x : List ℕ) (j : ℕ) (hj : j < contRows x) :
    ∑ i in Finset.range (contRows x), contCell x x i j
      = contCell x x j j :=
  Finset.sum_eq_single j
    (fun b _ hb => contCell_self_offdiag x hb)
    (fun hnj => absurd (Finset.mem_range.mpr hj) hnj)

theorem sumSq_self (x : List ℕ) :
    sumSq (contRows x) (contCols x) (contCell x x)
      = ∑ i in Finset.range (contRows x), (contCell x x i i) ^ 2 := by
  rw [sumSq]
  apply Finset.sum_congr rfl
  intro i hi
  exact Finset.sum_eq_single i
    (fun b _ hb => by
      rw [contCell_self_offdiag x (fun h => hb h.symm)]
      ring)
    (fun hni => absurd hi hni)

theorem rowSumSq_self (x : List ℕ) :
    rowSumSq (contRows x) (contCols x) (contCell x x)
      = sumSq (contRows x) (contCols x) (contCell x x) := by
  rw [rowSumSq, sumSq_self]
  apply Finset.sum_congr rfl
  intro i hi
  rw [rowSum_self x i (Finset.mem_range.mp hi)]

theorem colSumSq_self (x : List ℕ) :
    colSumSq (contRows x) (contCols x) (contCell x x)
      = sumSq (contRows x) (contCols x) (contCell x x) := by
  rw [colSumSq, sumSq_self]
  apply Finset.sum_congr rfl
  intro j hj
  rw [colSum_self x j (Finset.mem_range.mp hj)]

/-- Claim C9 (amended): `adj_rand_index(x, x) = 1.0` whenever the
self-comparison statistics are non-degenerate, i.e. some non-zero label is
repeated (`n < sum1`) and there are at least two distinct non-zero labels
(`sum1 < n^2`); otherwise the formula is `0/0`. -/
theorem adj_rand_index_self (x : List ℕ)
    (h1 : totSum (contRows x) (contCols x) (contCell x x)
        < sumSq (contRows x) (contCols x) (contCell x x))
    (h2 : sumSq (contRows x) (contCols x) (contCell x x)
        < (totSum (contRows x) (contCols x) (contCell x x)) ^ 2) :
    adj_rand_index x x = some 1 := by
  rw [adj_rand_index, rand_values]
  rw [rowSumSq_self, colSumSq_self]
  set N : ℚ := (totSum (contRows x) (contCols x) (contCell x x) : ℚ)
    with hN
  set A : ℚ := (sumSq (contRows x) (contCols x) (contCell x x) : ℚ)
    with hA
  have hNA : N < A := by
    rw [hN, hA]
    exact_mod_cast h1
  have hAN2 : A < N ^ 2 := by
    rw [hN, hA]
    exact_mod_cast h2
  show fdiv _ _ = some 1
  have hden : ((((A - N) / 2 + (A - A) / 2 + (A - A) / 2
        + (A + N ^ 2 - A - A) / 2)) ^ 2
      - (((A - N) / 2 + (A - A) / 2) * ((A - N) / 2 + (A - A) / 2)
        + ((A - A) / 2 + (A + N ^ 2 - A - A) / 2)
          * ((A - A) / 2 + (A + N ^ 2 - A - A) / 2)))
      = 2 * ((A - N) / 2) * ((N ^ 2 - A) / 2) := by
    ring
  have hpos : (0 : ℚ) < 2 * ((A - N) / 2) * ((N ^ 2 - A) / 2) := by
    have p1 : (0 : ℚ) < (A - N) / 2 := by linarith
    have p2 : (0 : ℚ) < (N ^ 2 - A) / 2 := by linarith
    positivity
  rw [fdiv]
  rw [if_neg (by
    rw [hden]
    exact ne_of_gt hpos)]
  congr 1
  rw [div_eq_one_iff_eq (by
    rw [hden]
    exact ne_of_gt hpos)]
  ring

/-- Witness for C9 at `x = [1, 1, 2]` (label 1 repeated, two distinct
non-zero labels). -/
theorem adj_rand_index_self_witness :
    totSum (contRows [1, 1, 2]) (contCols [1, 1, 2])
        (contCell [1, 1, 2] [1, 1, 2])
      < sumSq (contRows [1, 1, 2]) (contCols [1, 1, 2])
        (contCell [1, 1, 2] [1, 1, 2])
    ∧ sumSq (contRows [1, 1, 2]) (contCols [1, 1, 2])
        (contCell [1, 1, 2] [1, 1, 2])
      < (totSum (contRows [1, 1, 2]) (contCols [1, 1, 2])
        (contCell [1, 1, 2] [1, 1, 2])) ^ 2
    ∧ adj_rand_index [1, 1, 2] [1, 1, 2] = some 1 :=
  ⟨by decide, by decide,
   adj_rand_index_self [1, 1, 2] (by decide) (by decide)⟩

/-- Counterexample to claim C9 as stated: for `x = [1, 2]` (each non-zero
label occurring exactly once) the Adjusted Rand formula is `0/0`, a NaN at
runtime, not `1.0`. -/
theorem adj_rand_index_self_cex :
    adj_rand_index [1, 2] [1, 2] = none
    ∧ (none : Option ℚ) ≠ some 1 := by
  constructor
  · rw [adj_rand_index, rand_values]
    have e1 : totSum (contRows [1, 2]) (contCols [1, 2])
        (contCell [1, 2] [1, 2]) = 2 := by decide
    have e2 : sumSq (contRows [1, 2]) (contCols [1, 2])
        (contCell [1, 2] [1, 2]) = 2 := by decide
    have e3 : rowSumSq (contRows [1, 2]) (contCols [1, 2])
        (contCell [1, 2] [1, 2]) = 2 := by decide
    have e4 : colSumSq (contRows [1, 2]) (contCols [1, 2])
        (contCell [1, 2] [1, 2]) = 2 := by decide
    rw [e1, e2, e3, e4]
    show fdiv _ _ = none
    rw [fdiv, if_pos (by norm_num)]
  · simp

/-- Claim C6: `compare_adapted_rand_error` computes
`precision = (sum_p_ij - n)/(sum_a - n)` and
`recall = (sum_p_ij - n)/(sum_b - n)` with `n` the full element count of
the test image, and returns
`(1 - 2*p*r/(p + r), p, r)` (whenever no denominator degenerates to a
NaN). -/
theorem adapted_rand_error_formula (im_true im_test : List ℕ)
    (hshape : im_true.length = im_test.length)
    (ha : colSumSq (contRows im_test) (contCols im_true)
        (contCell im_true im_test) ≠ im_test.length)
    (hb : rowSumSq (contRows im_test) (contCols im_true)
        (contCell im_true im_test) ≠ im_test.length)
    (hpr : arePrecision im_true im_test + areRecall im_true im_test ≠ 0) :
    compare_adapted_rand_error im_true im_test
      = Except.ok (some
          (1 - 2 * arePrecision im_true im_test * areRecall im_true im_test
              / (arePrecision im_true im_test + areRecall im_true im_test),
           arePrecision im_true im_test, areRecall im_true im_test)) := by
  rw [compare_adapted_rand_error, assert_compatible, if_pos hshape]
  refine congrArg Except.ok ?_
  have ha' : (colSumSq (contRows im_test) (contCols im_true)
      (contCell im_true im_test) : ℚ) - (im_test.length : ℚ) ≠ 0 :=
    sub_ne_zero.mpr (fun hc => ha (by exact_mod_cast hc))
  have hb' : (rowSumSq (contRows im_test) (contCols im_true)
      (contCell im_true im_test) : ℚ) - (im_test.length : ℚ) ≠ 0 :=
    sub_ne_zero.mpr (fun hc => hb (by exact_mod_cast hc))
  have e1 : fdiv ((sumSq (contRows im_test) (contCols im_true)
        (contCell im_true im_test) : ℚ) - (im_test.length : ℚ))
      ((colSumSq (contRows im_test) (contCols im_true)
        (contCell im_true im_test) : ℚ) - (im_test.length : ℚ))
      = some (arePrecision im_true im_test) := by
    rw [fdiv, if_neg ha']
    rfl
  have e2 : fdiv ((sumSq (contRows im_test) (contCols im_true)
        (contCell im_true im_test) : ℚ) - (im_test.length : ℚ))
      ((rowSumSq (contRows im_test) (contCols im_true)
        (contCell im_true im_test) : ℚ) - (im_test.length : ℚ))
      = some (areRecall im_true im_test) := by
    rw [fdiv, if_neg hb']
    rfl
  rw [e1, Option.some_bind, e2, Option.some_bind]
  rw [fdiv, if_neg hpr, Option.map_some']

/-- Witness for C6 at `im_true = im_test = [1, 1, 2]`: the contingency
table is `diag(2, 1)`, `n = 3`, `sum_p_ij = sum_a = sum_b = 5`, so
`precision = recall = 1` and the result is `(0, 1, 1)`. -/
theorem adapted_rand_error_formula_witness :
    compare_adapted_rand_error [1, 1, 2] [1, 1, 2]
      = Except.ok (some
          (1 - 2 * arePrecision [1, 1, 2] [1, 1, 2]
              * areRecall [1, 1, 2] [1, 1, 2]
              / (arePrecision [1, 1, 2] [1, 1, 2]
                + areRecall [1, 1, 2] [1, 1, 2]),
           arePrecision [1, 1, 2] [1, 1, 2],
           areRecall [1, 1, 2] [1, 1, 2])) :=
  adapted_rand_error_formula [1, 1, 2] [1, 1, 2] rfl (by decide) (by decide)
    (by
      have hs : sumSq (contRows [1, 1, 2]) (contCols [1, 1, 2])
          (contCell [1, 1, 2] [1, 1, 2]) = 5 := by decide
      have hc : colSumSq (contRows [1, 1, 2]) (contCols [1, 1, 2])
          (contCell [1, 1, 2] [1, 1, 2]) = 5 := by decide
      have hr : rowSumSq (contRows [1, 1, 2]) (contCols [1, 1, 2])
          (contCell [1, 1, 2] [1, 1, 2]) = 5 := by decide
      rw [arePrecision, areRecall, hs, hc, hr, areN]
      norm_num)

theorem sweep_map_fst (labelFn : List Bool → List ℕ) (im_true : List ℕ)
    (im_test : List ℚ) (ts : List ℚ) :
    (sweep labelFn im_true im_test ts).map Prod.fst = ts := by
  rw [sweep, List.map_map]
  have hcomp : (Prod.fst ∘ fun t : ℚ =>
      (t, rand_index (labelFn (im_test.map (fun v => decide (v < t))))
            im_true,
          adj_rand_index (labelFn (im_test.map (fun v => decide (v < t))))
            im_true))
      = id := rfl
  rw [hcomp, List.map_id]

theorem rand_by_threshold_no_subsample (labelFn : List Bool → List ℕ)
    (im_true : List ℕ) (im_test : List ℚ) (npo : Option ℕ)
    (hshape : im_true.length = im_test.length)
    (hnp : ((uniq im_test).drop 1).length
        ≤ npo.getD ((uniq im_test).drop 1).length) :
    compare_rand_by_threshold labelFn im_true im_test npo
      = Except.ok (sweep labelFn im_true im_test
          ((uniq im_test).drop 1)) := by
  rw [compare_rand_by_threshold, assert_compatible_q, if_pos hshape]
  show (if ((uniq im_test).drop 1).length
      > 2 * (npo.getD ((uniq im_test).drop 1).length) then _ else _) = _
  rw [if_neg (by omega)]

/-- Claim C10 (amended): the candidate thresholds are the sorted unique
values of the test map with the smallest one dropped (this equals the
non-zero unique values exactly when `0` occurs in the non-negative test
map); whenever `npoints` is at least their number they are all used
verbatim, one output column per threshold. -/
theorem rand_by_threshold_verbatim (labelFn : List Bool → List ℕ)
    (im_true : List ℕ) (im_test : List ℚ) (np : ℕ)
    (hshape : im_true.length = im_test.length)
    (hnp : ((uniq im_test).drop 1).length ≤ np) :
    compare_rand_by_threshold labelFn im_true im_test (some np)
      = Except.ok (sweep labelFn im_true im_test ((uniq im_test).drop 1))
    ∧ (sweep labelFn im_true im_test ((uniq im_test).drop 1)).map
        Prod.fst = (uniq im_test).drop 1
    ∧ (sweep labelFn im_true im_test ((uniq im_test).drop 1)).length
        = ((uniq im_test).drop 1).length
    ∧ ((0 : ℚ) ∈ im_test → (∀ q ∈ im_test, 0 ≤ q) →
        (uniq im_test).drop 1 = nonzeroUniques im_test) := by
  refine ⟨rand_by_threshold_no_subsample labelFn im_true im_test
      (some np) hshape hnp,
    sweep_map_fst labelFn im_true im_test _,
    by rw [sweep, List.length_map], ?_⟩
  intro h0 hnn
  have hdec : uniq im_test
      = 0 :: (uniq im_test).filter (fun v => v ≠ 0) :=
    sorted_head_filter (uniq_sorted im_test) (uniq_nodup im_test)
      (mem_uniq.mpr h0) (fun b hb => hnn b (mem_uniq.mp hb))
  rw [nonzeroUniques]
  conv_lhs => rw [hdec]
  rw [List.drop_one, List.tail_cons]

/-- Witness for C10 (amended) at `im_test = [0, 1, 3]`,
`im_true = [1, 1, 2]`, `npoints = 5`, with a constant collaborator. -/
theorem rand_by_threshold_verbatim_witness :
    compare_rand_by_threshold (fun _ => [0, 0, 0]) [1, 1, 2]
        [0, 1, 3] (some 5)
      = Except.ok (sweep (fun _ => [0, 0, 0]) [1, 1, 2] [0, 1, 3]
          ((uniq [(0 : ℚ), 1, 3]).drop 1))
    ∧ (sweep (fun _ => [0, 0, 0]) [1, 1, 2] [0, 1, 3]
        ((uniq [(0 : ℚ), 1, 3]).drop 1)).map Prod.fst
        = (uniq [(0 : ℚ), 1, 3]).drop 1
    ∧ (sweep (fun _ => [0, 0, 0]) [1, 1, 2] [0, 1, 3]
        ((uniq [(0 : ℚ), 1, 3]).drop 1)).length
        = ((uniq [(0 : ℚ), 1, 3]).drop 1).length
    ∧ ((0 : ℚ) ∈ [(0 : ℚ), 1, 3] → (∀ q ∈ [(0 : ℚ), 1, 3], 0 ≤ q) →
        (uniq [(0 : ℚ), 1, 3]).drop 1 = nonzeroUniques [0, 1, 3]) :=
  rand_by_threshold_verbatim (fun _ => [0, 0, 0]) [1, 1, 2] [0, 1, 3] 5
    rfl (by decide)

/-- Counterexample to claim C10 as stated: for the test map `[1, 2]`,
which contains no zero, `np.unique(im_test)[1:]` drops the smallest
*non-zero* value, so only the threshold `2` is swept even though the
non-zero unique values are `[1, 2]` and `npoints` does not constrain the
sweep. -/
theorem rand_by_threshold_cex :
    (compare_rand_by_threshold (fun _ => [0, 0]) [1, 1] [1, 2] none).map
        (List.map Prod.fst) = Except.ok [2]
    ∧ nonzeroUniques [1, 2] = [1, 2]
    ∧ ([(2 : ℚ)] : List ℚ) ≠ [1, 2] := by
  refine ⟨?_, by decide, by decide⟩
  rw [rand_by_threshold_no_subsample (fun _ => [0, 0]) [1, 1] [1, 2]
    none rfl (le_refl _)]
  have hts : (uniq [(1 : ℚ), 2]).drop 1 = [2] := by decide
  rw [hts]
  show Except.ok ((sweep (fun _ => [0, 0]) [1, 1] [1, 2] [2]).map
    Prod.fst) = Except.ok [2]
  rw [sweep_map_fst]

/-- Claim C2: the results of `compare_split_vi` and `compare_vi` do not
depend on the second image at all, because `vi_tables` binds its first
argument as the contingency table and never reads its second argument. -/
theorem split_vi_ignores_im2 :
    (∀ im1 im2 im2' : List (List ℕ),
      compare_split_vi im1 im2 = compare_split_vi im1 im2')
    ∧ (∀ (im1 im2 im2' : List (List ℕ)) (w : ℚ × ℚ),
      compare_vi im1 im2 w = compare_vi im1 im2' w) :=
  ⟨fun _ _ _ => rfl, fun _ _ _ _ => rfl⟩

theorem xlogx_half : xlogx (1 / 2) = -(1 / 2 : ℝ) := by
  rw [xlogx, if_neg (by norm_num)]
  rw [show (((1 / 2 : ℚ)) : ℝ) = (2 : ℝ)⁻¹ by norm_num]
  rw [Real.logb_inv, Real.logb_self_eq_one (by norm_num)]
  norm_num

/-- Claim C1 evaluated at the failing input `x = [[1,1],[1,1]]`: because
`vi_tables` treats `x` itself as the contingency table, the conditional
probabilities are all `1/2` and `compare_split_vi(x, x) = (1.0, 1.0)`,
`compare_vi(x, x) = 2.0`, not `(0.0, 0.0)` and `0.0`. -/
theorem split_vi_self_nonzero :
    compare_split_vi [[1, 1], [1, 1]] [[1, 1], [1, 1]] = (1, 1)
    ∧ compare_vi [[1, 1], [1, 1]] [[1, 1], [1, 1]] (1, 1) = 2
    ∧ ((1 : ℝ), (1 : ℝ)) ≠ ((0 : ℝ), (0 : ℝ)) ∧ (2 : ℝ) ≠ 0 := by
  have hrows : rows2 [[1, 1], [1, 1]] = 2 := rfl
  have hcols : cols2 [[1, 1], [1, 1]] = 2 := rfl
  have hent : ∀ i < 2, ∀ j < 2, ent2 [[1, 1], [1, 1]] i j = 1 := by
    decide
  have htot : viTotal [[1, 1], [1, 1]] = 4 := by
    rw [viTotal, hrows, hcols]
    simp only [Finset.sum_range_succ, Finset.sum_range_zero]
    rw [hent 0 (by omega) 0 (by omega), hent 0 (by omega) 1 (by omega),
      hent 1 (by omega) 0 (by omega), hent 1 (by omega) 1 (by omega)]
    norm_num
  have hpxy : ∀ i j, i < 2 → j < 2 →
      pxy [[1, 1], [1, 1]] i j = 1 / 4 := by
    intro i j hi hj
    rw [pxy, htot, hent i hi j hj]
    norm_num
  have hpx : ∀ i, i < 2 → vipx [[1, 1], [1, 1]] i = 1 / 2 := by
    intro i hi
    rw [vipx, hcols]
    simp only [Finset.sum_range_succ, Finset.sum_range_zero]
    rw [hpxy i 0 hi (by omega), hpxy i 1 hi (by omega)]
    norm_num
  have hpy : ∀ j, j < 2 → vipy [[1, 1], [1, 1]] j = 1 / 2 := by
    intro j hj
    rw [vipy, hrows]
    simp only [Finset.sum_range_succ, Finset.sum_range_zero]
    rw [hpxy 0 j (by omega) hj, hpxy 1 j (by omega) hj]
    norm_num
  have hnzx : nzx [[1, 1], [1, 1]] = [0, 1] := by
    rw [nzx, hrows, show List.range 2 = [0, 1] from rfl]
    rw [List.filter_cons, List.filter_cons, List.filter_nil]
    rw [if_pos (decide_eq_true (by
          rw [hpx 0 (by omega)]
          norm_num)),
        if_pos (decide_eq_true (by
          rw [hpx 1 (by omega)]
          norm_num))]
  have hnzy : nzy [[1, 1], [1, 1]] = [0, 1] := by
    rw [nzy, hcols, show List.range 2 = [0, 1] from rfl]
    rw [List.filter_cons, List.filter_cons, List.filter_nil]
    rw [if_pos (decide_eq_true (by
          rw [hpy 0 (by omega)]
          norm_num)),
        if_pos (decide_eq_true (by
          rw [hpy 1 (by omega)]
          norm_num))]
  have hlpygx : ∀ i, i < 2 → lpygx [[1, 1], [1, 1]] i = -1 := by
    intro i hi
    rw [lpygx, if_pos (by
        rw [hpx i hi]
        norm_num)]
    rw [hnzy]
    rw [List.map_cons, List.map_cons, List.map_nil]
    rw [hpxy i 0 hi (by omega), hpxy i 1 hi (by omega), hpx i hi]
    rw [show (1 / 4 : ℚ) / (1 / 2) = 1 / 2 by norm_num]
    rw [List.sum_cons, List.sum_cons, List.sum_nil, xlogx_half]
    norm_num
  have hlpxgy : ∀ j, j < 2 → lpxgy [[1, 1], [1, 1]] j = -1 := by
    intro j hj
    rw [lpxgy, if_pos (by
        rw [hpy j hj]
        norm_num)]
    rw [hnzx]
    rw [List.map_cons, List.map_cons, List.map_nil]
    rw [hpxy 0 j (by omega) hj, hpxy 1 j (by omega) hj, hpy j hj]
    rw [show (1 / 4 : ℚ) / (1 / 2) = 1 / 2 by norm_num]
    rw [List.sum_cons, List.sum_cons, List.sum_nil, xlogx_half]
    norm_num
  have hhygx : ∀ i, i < 2 → hygx [[1, 1], [1, 1]] i = 1 / 2 := by
    intro i hi
    rw [hygx, hlpygx i hi, hpx i hi]
    norm_num
  have hhxgy : ∀ j, j < 2 → hxgy [[1, 1], [1, 1]] j = 1 / 2 := by
    intro j hj
    rw [hxgy, hlpxgy j hj, hpy j hj]
    norm_num
  have hsplit : compare_split_vi [[1, 1], [1, 1]] [[1, 1], [1, 1]]
      = (1, 1) := by
    show (∑ i in Finset.range (rows2 [[1, 1], [1, 1]]),
        hygx [[1, 1], [1, 1]] i,
      ∑ j in Finset.range (cols2 [[1, 1], [1, 1]]),
        hxgy [[1, 1], [1, 1]] j) = ((1 : ℝ), (1 : ℝ))
    rw [hrows, hcols]
    simp only [Finset.sum_range_succ, Finset.sum_range_zero]
    rw [hhygx 0 (by omega), hhygx 1 (by omega),
      hhxgy 0 (by omega), hhxgy 1 (by omega)]
    norm_num
  refine ⟨hsplit, ?_, by norm_num, by norm_num⟩
  rw [compare_vi, hsplit]
  norm_num

/-- Counterexample to claim C5 as stated: `compare_split_vi` and
`compare_vi`, given two arrays of different shapes, do not raise a
shape-mismatch error — they return a value. -/
theorem shape_check_cex :
    shape2 [[1, 1]] ≠ shape2 [[1], [1]]
    ∧ (compare_split_viE [[1, 1]] [[1], [1]]).isOk = true
    ∧ (compare_viE [[1, 1]] [[1], [1]] (1, 1)).isOk = true :=
  ⟨by decide, rfl, rfl⟩

/-- Claim C5 (amended): `compare_raw_edit_distance`,
`compare_adapted_rand_error` and `compare_rand_by_threshold` raise a
shape-mismatch error before any metric computation; `compare_vi` and
`compare_split_vi` perform no shape check and always return a value. -/
theorem shape_check_entry_points (im_true im_test : List ℕ)
    (im_testq : List ℚ) (τ : ℕ) (npo : Option ℕ)
    (labelFn : List Bool → List ℕ)
    (h1 : im_true.length ≠ im_test.length)
    (h2 : im_true.length ≠ im_testq.length) :
    compare_raw_edit_distance im_true im_test τ
        = Except.error "shape mismatch"
    ∧ compare_adapted_rand_error im_true im_test
        = Except.error "shape mismatch"
    ∧ compare_rand_by_threshold labelFn im_true im_testq npo
        = Except.error "shape mismatch"
    ∧ (∀ im1 im2 : List (List ℕ), (compare_split_viE im1 im2).isOk = true)
    ∧ (∀ (im1 im2 : List (List ℕ)) (w : ℚ × ℚ),
        (compare_viE im1 im2 w).isOk = true) := by
  refine ⟨?_, ?_, ?_, fun _ _ => rfl, fun _ _ _ => rfl⟩
  · rw [compare_raw_edit_distance, assert_compatible, if_neg h1]
  · rw [compare_adapted_rand_error, assert_compatible, if_neg h1]
  · rw [compare_rand_by_threshold, assert_compatible_q, if_neg h2]

/-- Witness for C5 (amended) at concrete mismatched shapes. -/
theorem shape_check_entry_points_witness :
    compare_raw_edit_distance [1] [1, 2] 0
        = Except.error "shape mismatch"
    ∧ compare_adapted_rand_error [1] [1, 2]
        = Except.error "shape mismatch"
    ∧ compare_rand_by_threshold (fun _ => []) [1] [1, 2, 3] none
        = Except.error "shape mismatch"
    ∧ (∀ im1 im2 : List (List ℕ), (compare_split_viE im1 im2).isOk = true)
    ∧ (∀ (im1 im2 : List (List ℕ)) (w : ℚ × ℚ),
        (compare_viE im1 im2 w).isOk = true) :=
  shape_check_entry_points [1] [1, 2] [1, 2, 3] 0 none (fun _ => [])
    (by decide) (by decide)

end SegMetrics

